import Mathlib

/-!
Verification of the audioguia walking-tour engine against its specification.

The definitions below are a shallow embedding of the two runtime engines:

* the geofence trigger engine of the tracking page
  (src/unnamed/part_000: `getEffectiveRadius`, `handlePosition`,
  `startTracking`, `stopTracking`), and
* the offline asset synchronization pipeline of the service worker
  (src/unnamed/part_007 and src/src/service-worker.ts: `cacheTourAssets`),
  plus the foreground download-state helper `getProgressPercent`
  (src/unnamed/part_000).

Numbers (coordinates, accuracies, distances, timestamps) are embedded as
rationals.  The haversine distance `distanceMeters` uses transcendental
float operations in the source; since every property below concerns only
how distances are *compared and threaded through the control flow*, the
engine definitions are parametrized over the distance function, and each
theorem holds for every distance function, in particular for haversine.
Platform side effects (geolocation subscription, the HTML audio element,
wake lock, DOM scrolling, status strings) are external collaborators; the
state kept here is exactly the module-level mutable state the source
reads and writes in the embedded functions.
-/

namespace Audioguia

/-! ## Constants (src/unnamed/part_000, lines 35-42) -/

def DEFAULT_TRIGGER_RADIUS_METERS : ℚ := 10
def MAX_EFFECTIVE_RADIUS_METERS : ℚ := 25
def ACCURACY_MULTIPLIER : ℚ := 3 / 2
def POOR_ACCURACY_THRESHOLD_METERS : ℚ := 20
def MAX_ACCURACY_FOR_TRIGGER_METERS : ℚ := 50
def MOTION_DISTANCE_METERS : ℚ := 8
def MOTION_STILL_METERS : ℚ := 3
def MOTION_WINDOW_MS : ℚ := 12000

/-- Embeds `clamp(value, min, max)` (part_000, lines 360-362). -/
def clamp (value lo hi : ℚ) : ℚ := min (max value lo) hi

/-- Embeds `getEffectiveRadius(accuracy)` (part_000, lines 364-367):
`clamp(max(DEFAULT_TRIGGER_RADIUS_METERS, accuracy * ACCURACY_MULTIPLIER),
DEFAULT_TRIGGER_RADIUS_METERS, MAX_EFFECTIVE_RADIUS_METERS)`. -/
def getEffectiveRadius (accuracy : ℚ) : ℚ :=
  clamp (max DEFAULT_TRIGGER_RADIUS_METERS (accuracy * ACCURACY_MULTIPLIER))
    DEFAULT_TRIGGER_RADIUS_METERS MAX_EFFECTIVE_RADIUS_METERS

/-! ## Tour data model (part_000, lines 13-33) -/

/-- A tour waypoint (part_000, lines 13-21).  `radius` is the
author-declared trigger radius; it is `Option` so that a waypoint whose
JSON lacks the field can be represented (the engine never reads it). -/
structure Point where
  id : String
  name : String
  lat : ℚ
  lng : ℚ
  alt : ℚ
  radius : Option ℚ
  audio : String
deriving DecidableEq, Repr

/-- The coordinates of one geolocation sample (`pos.coords`). -/
structure GeoPosition where
  latitude : ℚ
  longitude : ℚ
  accuracy : ℚ
deriving DecidableEq, Repr

/-- Embeds the `lastMotionSample` record `{lat, lng, time}` (part_000,
line 108). -/
structure MotionSample where
  lat : ℚ
  lng : ℚ
  time : ℚ
deriving DecidableEq, Repr

/-- The module-level mutable state of the tracking page that the
embedded functions read or write (part_000, lines 95-131 and 229-231).
`watchId` and the status strings are platform handles / display text and
are left external. -/
structure TrackState where
  isTracking : Bool
  isMoving : Bool
  lastMotionSample : Option MotionSample
  currentLat : Option ℚ
  currentLng : Option ℚ
  currentAccuracy : Option ℚ
  currentEffectiveRadius : Option ℚ
  gpsWarning : Bool
  distanceToFirstMeters : Option ℚ
  pointDistances : List (String × ℚ)
  triggeredPointIds : List String
  lastTriggeredPoint : Option Point
  lastTriggeredAccuracy : Option ℚ
  lastTriggeredEffectiveRadius : Option ℚ
  lastTriggeredInsideRadius : Option Bool
  lastTriggerEvalPointId : Option String
  lastTriggerEvalEffectiveRadius : Option ℚ
  lastTriggerEvalInsideRadius : Option Bool
  currentAudioPointId : Option String
  isAudioPlaying : Bool
deriving DecidableEq, Repr

/-- The distance function `distanceMeters(lat1, lon1, lat2, lon2)`
(part_000, lines 271-284) is haversine on floats; the engine embedding
is parametrized over it. -/
abbrev DistFn := ℚ → ℚ → ℚ → ℚ → ℚ

/-! ## Geofence trigger engine (part_000, lines 447-598) -/

/-- Embeds the motion-detector block of `handlePosition` (part_000,
lines 481-499): a sample is accepted for motion inference only when
`accuracy <= POOR_ACCURACY_THRESHOLD_METERS`; with no reference sample
the sample becomes the reference; once the window has elapsed, a
displacement `>= MOTION_DISTANCE_METERS` sets `isMoving` and resets the
reference, a displacement `< MOTION_STILL_METERS` clears `isMoving` and
resets the reference, and anything in between changes nothing.  Returns
the new `(isMoving, lastMotionSample)` pair. -/
def motionUpdate (d : DistFn) (s : TrackState) (latitude longitude accuracy now : ℚ) :
    Bool × Option MotionSample :=
  if accuracy ≤ POOR_ACCURACY_THRESHOLD_METERS then
    match s.lastMotionSample with
    | none => (s.isMoving, some ⟨latitude, longitude, now⟩)
    | some ref =>
      if now - ref.time ≥ MOTION_WINDOW_MS then
        if d ref.lat ref.lng latitude longitude ≥ MOTION_DISTANCE_METERS then
          (true, some ⟨latitude, longitude, now⟩)
        else if d ref.lat ref.lng latitude longitude < MOTION_STILL_METERS then
          (false, some ⟨latitude, longitude, now⟩)
        else (s.isMoving, s.lastMotionSample)
      else (s.isMoving, s.lastMotionSample)
  else (s.isMoving, s.lastMotionSample)

/-- The state written by the trigger loop of `handlePosition`
(part_000, lines 505-526): the (possibly extended) triggered-id list,
the point handed to `playPointAudio` (if any), and the three
`lastTriggerEval*` diagnostic fields. -/
structure ScanOut where
  triggeredPointIds : List String
  played : Option Point
  evalPointId : Option String
  evalEffectiveRadius : Option ℚ
  evalInsideRadius : Option Bool
deriving DecidableEq, Repr

/-- Embeds the `for (const point of points)` trigger loop of
`handlePosition` (part_000, lines 505-526): skip points already in
`triggeredPointIds`; for the first remaining point with
`dist <= effectiveRadius` and `accuracy <= MAX_ACCURACY_FOR_TRIGGER_METERS`,
append its id, play it and stop.  (The source's
`if (effectiveRadius === null) continue` can never fire, because
`effectiveRadius` was just assigned `getEffectiveRadius(accuracy)`.) -/
def triggerScan (d : DistFn) (lat lng accuracy effR : ℚ) :
    List Point → List String → Option String → Option ℚ → Option Bool → ScanOut
  | [], triggered, evalId, evalEff, evalInside =>
    ⟨triggered, none, evalId, evalEff, evalInside⟩
  | p :: rest, triggered, evalId, evalEff, evalInside =>
    if triggered.contains p.id then
      triggerScan d lat lng accuracy effR rest triggered evalId evalEff evalInside
    else
      if decide (d lat lng p.lat p.lng ≤ effR) && decide (accuracy ≤ MAX_ACCURACY_FOR_TRIGGER_METERS) then
        ⟨triggered ++ [p.id], some p, some p.id, some effR,
          some (decide (d lat lng p.lat p.lng ≤ effR))⟩
      else
        triggerScan d lat lng accuracy effR rest triggered (some p.id) (some effR)
          (some (decide (d lat lng p.lat p.lng ≤ effR)))

/-- The trigger condition of the loop body for a single point, as a
Boolean predicate: the point is not yet triggered, the distance is
within the effective radius, and the sample accuracy is acceptable.
`List.find?` with this predicate names the first point of the array
that the loop would trigger. -/
def trigPred (d : DistFn) (lat lng accuracy effR : ℚ) (triggered : List String)
    (p : Point) : Bool :=
  !(triggered.contains p.id) &&
    (decide (d lat lng p.lat p.lng ≤ effR) && decide (accuracy ≤ MAX_ACCURACY_FOR_TRIGGER_METERS))

/-- The result of one `handlePosition` call: the new module state and
the point whose audio playback was invoked, if any. -/
structure PositionOut where
  state : TrackState
  played : Option Point
deriving DecidableEq, Repr

/-- Embeds `handlePosition(pos)` (part_000, lines 447-527).  It always
records the sample and recomputes the per-point distances and the
motion state; if tracking is off it stops there; otherwise it runs the
trigger loop.  `playPointAudio(point)` synchronously sets
`currentAudioPointId = point.id`; the asynchronous outcome of
`audioPlayer.play()` (the `isAudioPlaying` flag, status text) is
platform-dependent and left external. -/
def handlePosition (d : DistFn) (points : List Point) (s : TrackState)
    (pos : GeoPosition) (now : ℚ) : PositionOut :=
  let latitude := pos.latitude
  let longitude := pos.longitude
  let accuracy := pos.accuracy
  let effectiveRadius := getEffectiveRadius accuracy
  let m := motionUpdate d s latitude longitude accuracy now
  let s1 : TrackState :=
    { s with
      currentLat := some latitude
      currentLng := some longitude
      currentAccuracy := some accuracy
      currentEffectiveRadius := some effectiveRadius
      gpsWarning := decide (accuracy > POOR_ACCURACY_THRESHOLD_METERS)
      distanceToFirstMeters := points.head?.map fun p => d latitude longitude p.lat p.lng
      pointDistances := points.map fun p => (p.id, d latitude longitude p.lat p.lng)
      isMoving := m.1
      lastMotionSample := m.2 }
  if !s.isTracking then ⟨s1, none⟩
  else
    let scan := triggerScan d latitude longitude accuracy effectiveRadius points
      s.triggeredPointIds s.lastTriggerEvalPointId s.lastTriggerEvalEffectiveRadius
      s.lastTriggerEvalInsideRadius
    match scan.played with
    | some p =>
      ⟨{ s1 with
          triggeredPointIds := scan.triggeredPointIds
          lastTriggeredPoint := some p
          lastTriggeredAccuracy := some accuracy
          lastTriggeredEffectiveRadius := some effectiveRadius
          lastTriggeredInsideRadius := some true
          lastTriggerEvalPointId := scan.evalPointId
          lastTriggerEvalEffectiveRadius := scan.evalEffectiveRadius
          lastTriggerEvalInsideRadius := scan.evalInsideRadius
          currentAudioPointId := some p.id }, some p⟩
    | none =>
      ⟨{ s1 with
          triggeredPointIds := scan.triggeredPointIds
          lastTriggerEvalPointId := scan.evalPointId
          lastTriggerEvalEffectiveRadius := scan.evalEffectiveRadius
          lastTriggerEvalInsideRadius := scan.evalInsideRadius }, none⟩

/-- Embeds `startTracking()` (part_000, lines 544-567).  When already
tracking, or when the platform lacks geolocation, it is a no-op on the
modelled state; otherwise it resets the triggered-point records and
turns tracking on.  The geolocation watch subscription, wake lock and
scrolling side effects are external. -/
def startTracking (geolocationSupported : Bool) (s : TrackState) : TrackState :=
  if s.isTracking then s
  else if !geolocationSupported then s
  else
    { s with
      triggeredPointIds := []
      lastTriggeredPoint := none
      lastTriggeredAccuracy := none
      lastTriggeredEffectiveRadius := none
      lastTriggeredInsideRadius := none
      isTracking := true }

/-- Embeds `stopTracking()` (part_000, lines 569-587): turns tracking
off, resets the motion detector, pauses the audio player and clears the
current-audio record.  It does not touch `triggeredPointIds` or the
`lastTriggered*` fields. -/
def stopTracking (s : TrackState) : TrackState :=
  { s with
    isTracking := false
    isMoving := false
    lastMotionSample := none
    currentAudioPointId := none
    isAudioPlaying := false }

/-- Pointwise agreement of two waypoints on every field except
`radius` (used to state that the trigger decision is radius-blind). -/
def matchExceptRadius (p q : Point) : Bool :=
  decide (p.id = q.id) && decide (p.name = q.name) && decide (p.lat = q.lat) &&
    decide (p.lng = q.lng) && decide (p.alt = q.alt) && decide (p.audio = q.audio)

/-- Two point lists agree everywhere except possibly in their points'
`radius` fields. -/
def pointsMatchExceptRadius : List Point → List Point → Bool
  | [], [] => true
  | p :: ps, q :: qs => matchExceptRadius p q && pointsMatchExceptRadius ps qs
  | _, _ => false

/-! ## Offline sync orchestrator (src/unnamed/part_007, lines 131-274,
and the revision in src/src/service-worker.ts, lines 104-202) -/

/-- A download stage, the `stage` strings of the worker protocol and of
`DownloadState` (part_007, line 329). -/
inductive Stage where
  | preparing
  | downloading
  | saving
  | done
  | error
deriving DecidableEq, Repr

/-- The `{okCount, failCount, failedUrls}` record of the terminal
`tour-downloaded` event (part_007, lines 267-271). -/
structure CacheResult where
  okCount : ℕ
  failCount : ℕ
  failedUrls : List String
deriving DecidableEq, Repr

/-- A `tour-progress` event as emitted by part_007's `cacheTourAssets`
(fields `id, stage, completed, total, currentIndex?, currentUrl?,
error?`). -/
structure ProgressEvent where
  id : String
  stage : Stage
  completed : ℕ
  total : ℕ
  currentIndex : Option ℕ
  currentUrl : Option String
  error : Option String
deriving DecidableEq, Repr

/-- A message posted to the clients by part_007's worker. -/
inductive SwEvent where
  | tourProgress (e : ProgressEvent)
  | tourDownloaded (id : String) (result : CacheResult)
deriving DecidableEq, Repr

/-- The platform environment of one `cacheTourAssets` run:
`toAbsolute` and `isCacheableUrl` (URL parsing against the registration
scope), and the outcome of each fetch-and-cache attempt.
`fetchAttemptOk url k` is whether attempt `k` (0-based, two attempts,
each under a 45 s timeout) fetches an ok response and stores it;
`fetchErrorMsg url` is the message of the error kept in `lastError`
when every attempt fails; `putJsonOk` is whether the final
`cache.put` of the metadata JSON succeeds. -/
structure SwEnv where
  toAbsolute : String → String
  isCacheableUrl : String → Bool
  fetchAttemptOk : String → ℕ → Bool
  fetchErrorMsg : String → String
  putJsonOk : Bool

/-- The payload of a `download-tour` command (part_007, lines 131-136). -/
structure TourPayload where
  id : String
  slug : String
  files : List String
  json : Option String
deriving DecidableEq, Repr

/-- Embeds the dedup-and-filter loop building `orderedUrls` (part_007,
lines 140-148): absolute, cacheable, first occurrence wins.  The `seen`
set always equals the accumulated list, so membership in the
accumulator models it. -/
def buildOrderedUrlsAux (env : SwEnv) : List String → List String → List String
  | acc, [] => acc
  | acc, f :: rest =>
    let url := env.toAbsolute f
    if !env.isCacheableUrl url then buildOrderedUrlsAux env acc rest
    else if acc.contains url then buildOrderedUrlsAux env acc rest
    else buildOrderedUrlsAux env (acc ++ [url]) rest

/-- The deduplicated, ordered, cacheable URL list of a payload
(part_007, lines 140-148). -/
def buildOrderedUrls (env : SwEnv) (files : List String) : List String :=
  buildOrderedUrlsAux env [] files

/-- Embeds the retry loop for one file (part_007, lines 188-207):
`cached` is true iff one of the two attempts fetches and stores the
response. -/
def fileCached (env : SwEnv) (url : String) : Bool :=
  env.fetchAttemptOk url 0 || env.fetchAttemptOk url 1

/-- Embeds the per-file download loop (part_007, lines 174-234).
Returns the emitted events, the final `completed` counter and the
`failedUrls` accumulated by the loop.  For each URL it first emits a
`downloading` event naming the current index and URL, then either
increments `completed` and emits the updated count, or records the URL
as failed and emits an event carrying the error message — and in both
cases continues with the next file. -/
def downloadLoop (env : SwEnv) (tourId : String) (total : ℕ) :
    List String → ℕ → ℕ → List SwEvent × ℕ × List String
  | [], completed, _index => ([], completed, [])
  | url :: rest, completed, index =>
    let preEv : SwEvent :=
      .tourProgress ⟨tourId, .downloading, completed, total, some (index + 1), some url, none⟩
    if fileCached env url then
      let postEv : SwEvent :=
        .tourProgress ⟨tourId, .downloading, completed + 1, total, some (index + 1), some url, none⟩
      let r := downloadLoop env tourId total rest (completed + 1) (index + 1)
      (preEv :: postEv :: r.1, r.2.1, r.2.2)
    else
      let postEv : SwEvent :=
        .tourProgress ⟨tourId, .downloading, completed, total, some (index + 1), some url,
          some (env.fetchErrorMsg url)⟩
      let r := downloadLoop env tourId total rest completed (index + 1)
      (preEv :: postEv :: r.1, r.2.1, url :: r.2.2)

/-- Embeds the kickoff block of part_007 (lines 162-172): when the
ordered URL list is nonempty, one extra `downloading` event naming the
first URL is emitted before the loop starts. -/
def kickoffEvents (tourId : String) (total : ℕ) : List String → List SwEvent
  | [] => []
  | u :: _ => [.tourProgress ⟨tourId, .downloading, 0, total, some 1, some u, none⟩]

/-- The synthetic cache key of the tour metadata JSON (part_007,
line 245). -/
def tourJsonUrl (env : SwEnv) (payload : TourPayload) : String :=
  env.toAbsolute ("offline/tours/" ++ payload.slug ++ ".json")

/-- The URLs appended to `failedUrls` by the metadata-JSON `cache.put`
step (part_007, lines 244-257): nothing when no JSON was sent or the
put succeeds, otherwise the synthetic JSON key. -/
def jsonFailures (env : SwEnv) (payload : TourPayload) : List String :=
  match payload.json with
  | none => []
  | some _ => if env.putJsonOk then [] else [tourJsonUrl env payload]

/-- Embeds `cacheTourAssets(payload)` of part_007 (lines 131-274):
builds `orderedUrls`, emits `preparing`, a kickoff `downloading` event
for the first URL when there is one, runs the per-file loop, emits
`saving`, stores the metadata JSON, emits `done` with
`completed: total`, and finally the `tour-downloaded` event with
`{okCount, failCount, failedUrls}`.  Returns the emitted event sequence
and the result record. -/
def cacheTourAssets (env : SwEnv) (payload : TourPayload) : List SwEvent × CacheResult :=
  let orderedUrls := buildOrderedUrls env payload.files
  let total := orderedUrls.length
  let prepEv : SwEvent := .tourProgress ⟨payload.id, .preparing, 0, total, none, none, none⟩
  let kickoffEvs : List SwEvent := kickoffEvents payload.id total orderedUrls
  let r := downloadLoop env payload.id total orderedUrls 0 0
  let savingEv : SwEvent := .tourProgress ⟨payload.id, .saving, r.2.1, total, none, none, none⟩
  let failedUrls := r.2.2 ++ jsonFailures env payload
  let doneEv : SwEvent := .tourProgress ⟨payload.id, .done, total, total, none, none, none⟩
  let result : CacheResult := ⟨r.2.1, failedUrls.length, failedUrls⟩
  (prepEv :: (kickoffEvs ++ (r.1 ++ [savingEv, doneEv, .tourDownloaded payload.id result])),
    result)

/-- A `tour-progress` event of the src/src/service-worker.ts revision
(fields `id, stage, completed, total, url?, error?`). -/
structure ProgressEventV2 where
  id : String
  stage : Stage
  completed : ℕ
  total : ℕ
  url : Option String
  error : Option String
deriving DecidableEq, Repr

/-- A message posted to the clients by the src/src/service-worker.ts
revision of the worker. -/
inductive SwEventV2 where
  | tourProgress (e : ProgressEventV2)
  | tourDownloaded (id : String) (result : CacheResult)
deriving DecidableEq, Repr

/-- The single `cache.add(url)` of the src/src/service-worker.ts
revision (lines 137-148), which makes one attempt only: modelled as the
first attempt of the environment. -/
def cacheAddOk (env : SwEnv) (url : String) : Bool :=
  env.fetchAttemptOk url 0

/-- Embeds the per-file loop of `cacheTourAssets` in
src/src/service-worker.ts (lines 137-162): one event per file, carrying
the incremented count on success or the unchanged count plus an error
message on failure. -/
def downloadLoopV2 (env : SwEnv) (tourId : String) (total : ℕ) :
    List String → ℕ → List SwEventV2 × ℕ × List String
  | [], completed => ([], completed, [])
  | url :: rest, completed =>
    if cacheAddOk env url then
      let ev : SwEventV2 :=
        .tourProgress ⟨tourId, .downloading, completed + 1, total, some url, none⟩
      let r := downloadLoopV2 env tourId total rest (completed + 1)
      (ev :: r.1, r.2.1, r.2.2)
    else
      let ev : SwEventV2 :=
        .tourProgress ⟨tourId, .downloading, completed, total, some url,
          some (env.fetchErrorMsg url)⟩
      let r := downloadLoopV2 env tourId total rest completed
      (ev :: r.1, r.2.1, url :: r.2.2)

/-- Embeds `cacheTourAssets(payload)` of src/src/service-worker.ts
(lines 104-202): the `urls` set iterates in first-insertion order, so
the same `buildOrderedUrls` list models it; `preparing`, the loop,
`saving`, the metadata JSON put, `done` with `completed: total`, then
`tour-downloaded`.  (Its `logNonOkResponses` pass only writes console
warnings.) -/
def cacheTourAssetsV2 (env : SwEnv) (payload : TourPayload) :
    List SwEventV2 × CacheResult :=
  let orderedUrls := buildOrderedUrls env payload.files
  let total := orderedUrls.length
  let prepEv : SwEventV2 := .tourProgress ⟨payload.id, .preparing, 0, total, none, none⟩
  let r := downloadLoopV2 env payload.id total orderedUrls 0
  let savingEv : SwEventV2 := .tourProgress ⟨payload.id, .saving, r.2.1, total, none, none⟩
  let failedUrls := r.2.2 ++ jsonFailures env payload
  let doneEv : SwEventV2 := .tourProgress ⟨payload.id, .done, total, total, none, none⟩
  let result : CacheResult := ⟨r.2.1, failedUrls.length, failedUrls⟩
  (prepEv :: (r.1 ++ [savingEv, doneEv, .tourDownloaded payload.id result]), result)

/-- The `tour-progress` events of an event sequence, in order. -/
def progressEvents (evs : List SwEvent) : List ProgressEvent :=
  evs.filterMap fun e =>
    match e with
    | .tourProgress p => some p
    | .tourDownloaded _ _ => none

/-- The `tour-progress` events of a src/src/service-worker.ts event
sequence, in order. -/
def progressEventsV2 (evs : List SwEventV2) : List ProgressEventV2 :=
  evs.filterMap fun e =>
    match e with
    | .tourProgress p => some p
    | .tourDownloaded _ _ => none

/-- The `completed` counters carried by the `tour-progress` events of
an event sequence, in emission order. -/
def completedSeq (evs : List SwEvent) : List ℕ :=
  (progressEvents evs).map ProgressEvent.completed

/-- The `completed` counters carried by the `tour-progress` events of a
src/src/service-worker.ts event sequence, in emission order. -/
def completedSeqV2 (evs : List SwEventV2) : List ℕ :=
  (progressEventsV2 evs).map ProgressEventV2.completed

/-! ## Foreground download state store (part_000 and part_007,
lines 326-410) -/

/-- The `status` strings of `DownloadState` (part_007, line 332). -/
inductive DownloadStatus where
  | idle
  | downloading
  | downloaded
  | error
deriving DecidableEq, Repr

/-- The `DownloadState` record of the offline store (part_007,
lines 331-349). -/
structure DownloadState where
  status : DownloadStatus
  bytes : Option ℚ
  downloadedBytes : Option ℚ
  progress : Option ℚ
  stage : Option Stage
  completedFiles : Option ℕ
  totalFiles : Option ℕ
  lastUpdate : Option ℚ
  lastAnnouncedProgress : Option ℚ
  lastAnnouncedAt : Option ℚ
  screenreaderText : Option String
  errorMessage : Option String
  cacheResult : Option CacheResult
deriving DecidableEq, Repr

/-- JavaScript `Math.round(x)`: the integer nearest to `x`, halves
rounding toward positive infinity, i.e. `⌊x + 1/2⌋`. -/
def jsRound (q : ℚ) : ℤ := ⌊q + 1 / 2⌋

/-- Embeds `getProgressPercent(state?)` (part_000, lines 297-304): `0`
without a state; an explicit numeric `progress` field is returned when
present; otherwise `completedFiles`/`totalFiles` drive the rounded
percentage — under JavaScript truthiness, so a zero in either field
falls through to `0`. -/
def getProgressPercent (state : Option DownloadState) : ℚ :=
  match state with
  | none => 0
  | some s =>
    match s.progress with
    | some p => p
    | none =>
      match s.completedFiles, s.totalFiles with
      | some c, some t =>
        if c ≠ 0 ∧ t ≠ 0 then ((jsRound ((c : ℚ) / (t : ℚ) * 100) : ℤ) : ℚ) else 0
      | _, _ => 0

/-! ## Concrete instances used by witnesses and counterexamples -/

/-- A distance function that is constantly zero (every sample is at
every point). -/
def dZero : DistFn := fun _ _ _ _ => 0

/-- A distance function that is constantly 5 meters. -/
def dFive : DistFn := fun _ _ _ _ => 5

/-- A concrete waypoint. -/
def pt1 : Point := ⟨"p1", "Punto 1", 1, 2, 0, some 10, "p1.mp3"⟩

/-- The same waypoint with its declared radius absent. -/
def pt1NoRadius : Point := ⟨"p1", "Punto 1", 1, 2, 0, none, "p1.mp3"⟩

/-- The module state as initialized at page load (part_000,
lines 95-131). -/
def initialTrackState : TrackState :=
  ⟨false, false, none, none, none, none, none, false, none, [], [], none,
    none, none, none, none, none, none, none, false⟩

/-- A state in the middle of a tracking session with one point already
triggered. -/
def midSessionState : TrackState :=
  { initialTrackState with
    isTracking := true
    triggeredPointIds := ["p1"]
    lastTriggeredPoint := some pt1
    currentAudioPointId := some "p1" }

/-- A tracking state with a motion reference sample taken at time 0. -/
def motionRefState : TrackState :=
  { initialTrackState with
    isTracking := true
    lastMotionSample := some ⟨0, 0, 0⟩ }

/-- A concrete position sample with 5 m accuracy. -/
def samplePos : GeoPosition := ⟨1, 2, 5⟩

/-- A concrete position sample with 10 m accuracy. -/
def samplePos10 : GeoPosition := ⟨3, 4, 10⟩

/-- An environment in which every URL is cacheable and absolute as
given, every fetch succeeds except for `"f3"`, which fails on both
attempts. -/
def env5 : SwEnv :=
  { toAbsolute := fun f => f
    isCacheableUrl := fun _ => true
    fetchAttemptOk := fun url _ => !(url == "f3")
    fetchErrorMsg := fun _ => "HTTP 404"
    putJsonOk := true }

/-- A five-file download command whose third file will fail. -/
def payload5 : TourPayload := ⟨"t1", "tour-1", ["f1", "f2", "f3", "f4", "f5"], none⟩

/-- A download state carrying both an explicit `progress` number and a
`completedFiles`/`totalFiles` pair that disagree with it. -/
def progressPrecedenceState : DownloadState :=
  { status := .downloading
    bytes := none
    downloadedBytes := none
    progress := some 5
    stage := some .downloading
    completedFiles := some 1
    totalFiles := some 2
    lastUpdate := none
    lastAnnouncedProgress := none
    lastAnnouncedAt := none
    screenreaderText := none
    errorMessage := none
    cacheResult := none }

/-- A download state with no explicit `progress` but with 3 of 4 files
completed. -/
def threeOfFourState : DownloadState :=
  { progressPrecedenceState with
    progress := none
    completedFiles := some 3
    totalFiles := some 4 }

/-! ## Lemmas about the trigger scan -/

/-- When `List.find?` locates a first point satisfying the trigger
condition, the scan appends exactly that point's id and plays it. -/
theorem triggerScan_of_find_eq_some (d : DistFn) (lat lng accuracy effR : ℚ)
    (points : List Point) (triggered : List String) (p : Point)
    (h : points.find? (trigPred d lat lng accuracy effR triggered) = some p) :
    ∀ e₁ e₂ e₃,
      (triggerScan d lat lng accuracy effR points triggered e₁ e₂ e₃).triggeredPointIds
          = triggered ++ [p.id] ∧
      (triggerScan d lat lng accuracy effR points triggered e₁ e₂ e₃).played = some p := by
  induction points with
  | nil => simp at h
  | cons q rest ih =>
    intro e₁ e₂ e₃
    rw [List.find?_cons] at h
    by_cases hc : q.id ∈ triggered
    · have hpred : trigPred d lat lng accuracy effR triggered q = false := by
        simp [trigPred, hc]
      rw [hpred] at h
      simpa [triggerScan, hc] using ih h e₁ e₂ e₃
    · by_cases hcond : d lat lng q.lat q.lng ≤ effR ∧ accuracy ≤ MAX_ACCURACY_FOR_TRIGGER_METERS
      · have hpred : trigPred d lat lng accuracy effR triggered q = true := by
          simp [trigPred, hc, hcond.1, hcond.2]
        rw [hpred] at h
        cases h
        simp [triggerScan, hc, hcond]
      · have hpred : trigPred d lat lng accuracy effR triggered q = false := by
          simp only [trigPred]
          rcases not_and_or.mp hcond with h1 | h1 <;> simp [h1]
        rw [hpred] at h
        simpa [triggerScan, hc, hcond] using ih h (some q.id) (some effR)
          (some (decide (d lat lng q.lat q.lng ≤ effR)))

/-- When no point satisfies the trigger condition, the scan leaves the
triggered-id list unchanged and plays nothing. -/
theorem triggerScan_of_find_eq_none (d : DistFn) (lat lng accuracy effR : ℚ)
    (points : List Point) (triggered : List String)
    (h : points.find? (trigPred d lat lng accuracy effR triggered) = none) :
    ∀ e₁ e₂ e₃,
      (triggerScan d lat lng accuracy effR points triggered e₁ e₂ e₃).triggeredPointIds
          = triggered ∧
      (triggerScan d lat lng accuracy effR points triggered e₁ e₂ e₃).played = none := by
  induction points with
  | nil => intro e₁ e₂ e₃; simp [triggerScan]
  | cons q rest ih =>
    intro e₁ e₂ e₃
    rw [List.find?_cons] at h
    by_cases hc : q.id ∈ triggered
    · have hpred : trigPred d lat lng accuracy effR triggered q = false := by
        simp [trigPred, hc]
      rw [hpred] at h
      simpa [triggerScan, hc] using ih h e₁ e₂ e₃
    · by_cases hcond : d lat lng q.lat q.lng ≤ effR ∧ accuracy ≤ MAX_ACCURACY_FOR_TRIGGER_METERS
      · exfalso
        have hpred : trigPred d lat lng accuracy effR triggered q = true := by
          simp [trigPred, hc, hcond.1, hcond.2]
        rw [hpred] at h
        simp at h
      · have hpred : trigPred d lat lng accuracy effR triggered q = false := by
          simp only [trigPred]
          rcases not_and_or.mp hcond with h1 | h1 <;> simp [h1]
        rw [hpred] at h
        simpa [triggerScan, hc, hcond] using ih h (some q.id) (some effR)
          (some (decide (d lat lng q.lat q.lng ≤ effR)))

/-- A point found by the trigger predicate is not yet triggered. -/
theorem trigPred_not_triggered (d : DistFn) (lat lng accuracy effR : ℚ)
    (triggered : List String) (p : Point)
    (h : trigPred d lat lng accuracy effR triggered p = true) :
    p.id ∉ triggered := by
  simp only [trigPred, Bool.and_eq_true, Bool.not_eq_true', decide_eq_true_eq] at h
  intro hmem
  have : triggered.contains p.id = true := List.elem_iff.mpr hmem
  rw [h.1] at this
  cases this

/-! ## Theorem for claim C5 -/

/-- Claim C5: `effectiveRadius(accuracy)`, computed as
`clamp(max(baseRadius, accuracy * accuracyMultiplier), minRadius, maxRadius)`
with base 10 m, multiplier 1.5, clamped to [10, 25] m, is non-decreasing
in `accuracy` and its result always lies within `[minRadius, maxRadius]`
= [10, 25]. -/
theorem getEffectiveRadius_monotone_and_bounded :
    (∀ a₁ a₂ : ℚ, a₁ ≤ a₂ → getEffectiveRadius a₁ ≤ getEffectiveRadius a₂) ∧
    (∀ a : ℚ, DEFAULT_TRIGGER_RADIUS_METERS ≤ getEffectiveRadius a ∧
      getEffectiveRadius a ≤ MAX_EFFECTIVE_RADIUS_METERS) := by
  constructor
  · intro a₁ a₂ h
    unfold getEffectiveRadius clamp
    apply min_le_min _ le_rfl
    apply max_le_max _ le_rfl
    apply max_le_max le_rfl
    have hmul : (0 : ℚ) ≤ ACCURACY_MULTIPLIER := by norm_num [ACCURACY_MULTIPLIER]
    exact mul_le_mul_of_nonneg_right h hmul
  · intro a
    unfold getEffectiveRadius clamp
    constructor
    · apply le_min
      · exact le_max_right _ _
      · norm_num [DEFAULT_TRIGGER_RADIUS_METERS, MAX_EFFECTIVE_RADIUS_METERS]
    · exact min_le_right _ _

/-- Witness for C5: the monotonicity part applied at the concrete
accuracies 5 and 12, and the bounds at accuracy 12. -/
theorem getEffectiveRadius_monotone_and_bounded_witness :
    (5 : ℚ) ≤ 12 ∧ getEffectiveRadius 5 ≤ getEffectiveRadius 12 ∧
    (DEFAULT_TRIGGER_RADIUS_METERS ≤ getEffectiveRadius 12 ∧
      getEffectiveRadius 12 ≤ MAX_EFFECTIVE_RADIUS_METERS) :=
  ⟨by norm_num,
   getEffectiveRadius_monotone_and_bounded.1 5 12 (by norm_num),
   getEffectiveRadius_monotone_and_bounded.2 12⟩

/-! ## Theorems for claims C2, C1, C10 -/

/-- Claim C2: while tracking, processing one position sample adds at
most one point id to `triggeredPointIds`: points are scanned in
declared array order skipping already-triggered ones, and the first
point whose distance to the sample is at most
`effectiveRadius(accuracy)` and whose sample accuracy is at most
`maxAccuracyForTrigger` (50 m) is triggered — appended to
`triggeredPointIds`, recorded as `lastTriggeredPoint`, its audio
playback invoked — after which evaluation stops; if no untriggered
point satisfies both conditions, the triggered set is unchanged. -/
theorem handlePosition_first_match (d : DistFn) (points : List Point)
    (s : TrackState) (pos : GeoPosition) (now : ℚ) (h : s.isTracking = true) :
    (∀ p : Point,
      points.find? (trigPred d pos.latitude pos.longitude pos.accuracy
          (getEffectiveRadius pos.accuracy) s.triggeredPointIds) = some p →
        (handlePosition d points s pos now).state.triggeredPointIds
            = s.triggeredPointIds ++ [p.id] ∧
        (handlePosition d points s pos now).state.lastTriggeredPoint = some p ∧
        (handlePosition d points s pos now).played = some p) ∧
    (points.find? (trigPred d pos.latitude pos.longitude pos.accuracy
        (getEffectiveRadius pos.accuracy) s.triggeredPointIds) = none →
      (handlePosition d points s pos now).state.triggeredPointIds = s.triggeredPointIds ∧
      (handlePosition d points s pos now).played = none ∧
      (handlePosition d points s pos now).state.lastTriggeredPoint
          = s.lastTriggeredPoint) := by
  constructor
  · intro p hfind
    obtain ⟨hids, hplayed⟩ := triggerScan_of_find_eq_some d pos.latitude pos.longitude
      pos.accuracy (getEffectiveRadius pos.accuracy) points s.triggeredPointIds p hfind
      s.lastTriggerEvalPointId s.lastTriggerEvalEffectiveRadius s.lastTriggerEvalInsideRadius
    simp [handlePosition, h, hplayed, hids]
  · intro hfind
    obtain ⟨hids, hplayed⟩ := triggerScan_of_find_eq_none d pos.latitude pos.longitude
      pos.accuracy (getEffectiveRadius pos.accuracy) points s.triggeredPointIds hfind
      s.lastTriggerEvalPointId s.lastTriggerEvalEffectiveRadius s.lastTriggerEvalInsideRadius
    simp [handlePosition, h, hplayed, hids]

/-- Witness for C2: in a tracking session whose single point is already
triggered, the scan finds nothing and the triggered set, the playback
and the last-triggered record are unchanged. -/
theorem handlePosition_first_match_witness :
    midSessionState.isTracking = true ∧
    ((handlePosition dZero [pt1] midSessionState samplePos 0).state.triggeredPointIds
        = midSessionState.triggeredPointIds ∧
      (handlePosition dZero [pt1] midSessionState samplePos 0).played = none ∧
      (handlePosition dZero [pt1] midSessionState samplePos 0).state.lastTriggeredPoint
        = midSessionState.lastTriggeredPoint) :=
  ⟨rfl, (handlePosition_first_match dZero [pt1] midSessionState samplePos 0 rfl).2 (by decide)⟩

/-- Claim C1: for every tracking session and point id, processing a
position sample never removes an id from `triggeredPointIds` (the old
list is a prefix of the new one) and never adds an id already present
(the list is unchanged, or exactly one id of an untriggered point of
the list is appended — so a point already in `triggeredPointIds` is
skipped and re-entering its radius is a no-op); hence
`triggeredPointIds` grows monotonically within a session and stays
duplicate-free. -/
theorem handlePosition_triggered_monotone (d : DistFn) (points : List Point)
    (s : TrackState) (pos : GeoPosition) (now : ℚ) :
    (s.triggeredPointIds <+: (handlePosition d points s pos now).state.triggeredPointIds) ∧
    (((handlePosition d points s pos now).state.triggeredPointIds = s.triggeredPointIds ∧
        (handlePosition d points s pos now).played = none) ∨
      (∃ p : Point, p ∈ points ∧ p.id ∉ s.triggeredPointIds ∧
        (handlePosition d points s pos now).state.triggeredPointIds
            = s.triggeredPointIds ++ [p.id] ∧
        (handlePosition d points s pos now).played = some p)) ∧
    (s.triggeredPointIds.Nodup →
      (handlePosition d points s pos now).state.triggeredPointIds.Nodup) := by
  cases hb : s.isTracking with
  | false =>
    have hids : (handlePosition d points s pos now).state.triggeredPointIds
        = s.triggeredPointIds := by
      simp [handlePosition, hb]
    have hplayed : (handlePosition d points s pos now).played = none := by
      simp [handlePosition, hb]
    exact ⟨hids ▸ List.prefix_refl _, Or.inl ⟨hids, hplayed⟩, fun hn => hids ▸ hn⟩
  | true =>
    cases hfind : points.find? (trigPred d pos.latitude pos.longitude pos.accuracy
        (getEffectiveRadius pos.accuracy) s.triggeredPointIds) with
    | none =>
      obtain ⟨hids, hplayed⟩ := triggerScan_of_find_eq_none d pos.latitude pos.longitude
        pos.accuracy (getEffectiveRadius pos.accuracy) points s.triggeredPointIds hfind
        s.lastTriggerEvalPointId s.lastTriggerEvalEffectiveRadius s.lastTriggerEvalInsideRadius
      have hids' : (handlePosition d points s pos now).state.triggeredPointIds
          = s.triggeredPointIds := by
        simp [handlePosition, hb, hplayed, hids]
      have hplayed' : (handlePosition d points s pos now).played = none := by
        simp [handlePosition, hb, hplayed]
      exact ⟨hids' ▸ List.prefix_refl _, Or.inl ⟨hids', hplayed'⟩, fun hn => hids' ▸ hn⟩
    | some p =>
      have hmem : p ∈ points := List.mem_of_find?_eq_some hfind
      have hnot : p.id ∉ s.triggeredPointIds :=
        trigPred_not_triggered d pos.latitude pos.longitude pos.accuracy
          (getEffectiveRadius pos.accuracy) s.triggeredPointIds p (List.find?_some hfind)
      obtain ⟨hids, hplayed⟩ := triggerScan_of_find_eq_some d pos.latitude pos.longitude
        pos.accuracy (getEffectiveRadius pos.accuracy) points s.triggeredPointIds p hfind
        s.lastTriggerEvalPointId s.lastTriggerEvalEffectiveRadius s.lastTriggerEvalInsideRadius
      have hids' : (handlePosition d points s pos now).state.triggeredPointIds
          = s.triggeredPointIds ++ [p.id] := by
        simp [handlePosition, hb, hplayed, hids]
      have hplayed' : (handlePosition d points s pos now).played = some p := by
        simp [handlePosition, hb, hplayed]
      refine ⟨?_, Or.inr ⟨p, hmem, hnot, hids', hplayed'⟩, ?_⟩
      · rw [hids']; exact ⟨[p.id], rfl⟩
      · intro hn
        rw [hids']
        refine List.Nodup.append hn (List.nodup_singleton _) ?_
        intro x hx hy
        simp only [List.mem_singleton] at hy
        subst hy
        exact hnot hx

/-- Witness for C1: applied to a session that already triggered its
only point, preserving the duplicate-freeness of the triggered list. -/
theorem handlePosition_triggered_monotone_witness :
    midSessionState.triggeredPointIds.Nodup ∧
    (handlePosition dZero [pt1] midSessionState samplePos 0).state.triggeredPointIds.Nodup :=
  ⟨by decide,
    (handlePosition_triggered_monotone dZero [pt1] midSessionState samplePos 0).2.2
      (by decide)⟩

/-- The trigger scan never reads the `radius` field: over two point
lists that agree except in `radius`, it produces the same triggered-id
list, the same diagnostic fields, and plays points with the same id,
audio and name. -/
theorem triggerScan_radius_blind (d : DistFn) (lat lng accuracy effR : ℚ) :
    ∀ (ps qs : List Point), pointsMatchExceptRadius ps qs = true →
      ∀ (triggered : List String) e₁ e₂ e₃,
        (triggerScan d lat lng accuracy effR ps triggered e₁ e₂ e₃).triggeredPointIds
            = (triggerScan d lat lng accuracy effR qs triggered e₁ e₂ e₃).triggeredPointIds ∧
        Option.map Point.id (triggerScan d lat lng accuracy effR ps triggered e₁ e₂ e₃).played
            = Option.map Point.id
                (triggerScan d lat lng accuracy effR qs triggered e₁ e₂ e₃).played ∧
        Option.map Point.audio (triggerScan d lat lng accuracy effR ps triggered e₁ e₂ e₃).played
            = Option.map Point.audio
                (triggerScan d lat lng accuracy effR qs triggered e₁ e₂ e₃).played ∧
        Option.map Point.name (triggerScan d lat lng accuracy effR ps triggered e₁ e₂ e₃).played
            = Option.map Point.name
                (triggerScan d lat lng accuracy effR qs triggered e₁ e₂ e₃).played := by
  intro ps
  induction ps with
  | nil =>
    intro qs h
    cases qs with
    | nil => intro triggered e₁ e₂ e₃; simp [triggerScan]
    | cons q qs' => simp [pointsMatchExceptRadius] at h
  | cons p ps' ih =>
    intro qs h
    cases qs with
    | nil => simp [pointsMatchExceptRadius] at h
    | cons q qs' =>
      have hm : matchExceptRadius p q = true ∧ pointsMatchExceptRadius ps' qs' = true := by
        simpa [pointsMatchExceptRadius, Bool.and_eq_true] using h
      have hflds := hm.1
      simp only [matchExceptRadius, Bool.and_eq_true, decide_eq_true_eq] at hflds
      obtain ⟨⟨⟨⟨⟨hid, hname⟩, hlat⟩, hlng⟩, halt⟩, haudio⟩ := hflds
      intro triggered e₁ e₂ e₃
      simp only [triggerScan]
      rw [hid, hlat, hlng]
      by_cases hc : triggered.contains q.id = true
      · simp only [if_pos hc]
        exact ih qs' hm.2 triggered e₁ e₂ e₃
      · simp only [if_neg hc]
        by_cases hcond :
          (decide (d lat lng q.lat q.lng ≤ effR) &&
            decide (accuracy ≤ MAX_ACCURACY_FOR_TRIGGER_METERS)) = true
        · simp only [if_pos hcond]
          simp [hid, hname, haudio]
        · simp only [if_neg hcond]
          exact ih qs' hm.2 triggered (some q.id) (some effR)
            (some (decide (d lat lng q.lat q.lng ≤ effR)))

/-- Claim C10: the geofence trigger decision never reads a point's
declared `radius` field: for any position sample, two runs of
`handlePosition` on point lists that differ only in their points'
`radius` values (a missing radius included) produce identical
`triggeredPointIds` and identical audio-playback invocations (same
point id, audio source and display name), because the effective trigger
radius depends only on the sample's accuracy and the fixed
configuration constants. -/
theorem handlePosition_radius_blind (d : DistFn) (points₁ points₂ : List Point)
    (s : TrackState) (pos : GeoPosition) (now : ℚ)
    (h : pointsMatchExceptRadius points₁ points₂ = true) :
    (handlePosition d points₁ s pos now).state.triggeredPointIds
        = (handlePosition d points₂ s pos now).state.triggeredPointIds ∧
    Option.map Point.id (handlePosition d points₁ s pos now).played
        = Option.map Point.id (handlePosition d points₂ s pos now).played ∧
    Option.map Point.audio (handlePosition d points₁ s pos now).played
        = Option.map Point.audio (handlePosition d points₂ s pos now).played ∧
    Option.map Point.name (handlePosition d points₁ s pos now).played
        = Option.map Point.name (handlePosition d points₂ s pos now).played := by
  cases hb : s.isTracking with
  | false => simp [handlePosition, hb]
  | true =>
    obtain ⟨hids, hpid, haud, hnm⟩ := triggerScan_radius_blind d pos.latitude pos.longitude
      pos.accuracy (getEffectiveRadius pos.accuracy) points₁ points₂ h s.triggeredPointIds
      s.lastTriggerEvalPointId s.lastTriggerEvalEffectiveRadius s.lastTriggerEvalInsideRadius
    cases hp₁ : (triggerScan d pos.latitude pos.longitude pos.accuracy
        (getEffectiveRadius pos.accuracy) points₁ s.triggeredPointIds
        s.lastTriggerEvalPointId s.lastTriggerEvalEffectiveRadius
        s.lastTriggerEvalInsideRadius).played with
    | none =>
      have hp₂ : (triggerScan d pos.latitude pos.longitude pos.accuracy
          (getEffectiveRadius pos.accuracy) points₂ s.triggeredPointIds
          s.lastTriggerEvalPointId s.lastTriggerEvalEffectiveRadius
          s.lastTriggerEvalInsideRadius).played = none := by
        rw [hp₁] at hpid
        cases hq : (triggerScan d pos.latitude pos.longitude pos.accuracy
            (getEffectiveRadius pos.accuracy) points₂ s.triggeredPointIds
            s.lastTriggerEvalPointId s.lastTriggerEvalEffectiveRadius
            s.lastTriggerEvalInsideRadius).played with
        | none => rfl
        | some q => rw [hq] at hpid; simp at hpid
      simp [handlePosition, hb, hp₁, hp₂, hids]
    | some p =>
      obtain ⟨q, hq⟩ : ∃ q, (triggerScan d pos.latitude pos.longitude pos.accuracy
          (getEffectiveRadius pos.accuracy) points₂ s.triggeredPointIds
          s.lastTriggerEvalPointId s.lastTriggerEvalEffectiveRadius
          s.lastTriggerEvalInsideRadius).played = some q := by
        rw [hp₁] at hpid
        cases hqq : (triggerScan d pos.latitude pos.longitude pos.accuracy
            (getEffectiveRadius pos.accuracy) points₂ s.triggeredPointIds
            s.lastTriggerEvalPointId s.lastTriggerEvalEffectiveRadius
            s.lastTriggerEvalInsideRadius).played with
        | none => rw [hqq] at hpid; simp at hpid
        | some q => exact ⟨q, rfl⟩
      rw [hp₁] at hpid haud hnm
      rw [hq] at hpid haud hnm
      simp only [Option.map_some'] at hpid haud hnm
      simp [handlePosition, hb, hp₁, hq, hids, hpid, haud, hnm]

/-- Witness for C10: the same session run over `[pt1]` and over the
radius-free copy `[pt1NoRadius]` agrees on the triggered ids and the
played audio. -/
theorem handlePosition_radius_blind_witness :
    pointsMatchExceptRadius [pt1] [pt1NoRadius] = true ∧
    ((handlePosition dZero [pt1] motionRefState samplePos 0).state.triggeredPointIds
        = (handlePosition dZero [pt1NoRadius] motionRefState samplePos 0).state.triggeredPointIds ∧
      Option.map Point.id (handlePosition dZero [pt1] motionRefState samplePos 0).played
        = Option.map Point.id
            (handlePosition dZero [pt1NoRadius] motionRefState samplePos 0).played ∧
      Option.map Point.audio (handlePosition dZero [pt1] motionRefState samplePos 0).played
        = Option.map Point.audio
            (handlePosition dZero [pt1NoRadius] motionRefState samplePos 0).played ∧
      Option.map Point.name (handlePosition dZero [pt1] motionRefState samplePos 0).played
        = Option.map Point.name
            (handlePosition dZero [pt1NoRadius] motionRefState samplePos 0).played) :=
  ⟨by decide,
    handlePosition_radius_blind dZero [pt1] [pt1NoRadius] motionRefState samplePos 0 (by decide)⟩

/-! ## Theorems for claims C6, C7, C8 -/

/-- The motion-detector fields of the state after `handlePosition` are
exactly what the motion block computes, regardless of tracking and of
the trigger scan. -/
theorem handlePosition_motionFields (d : DistFn) (points : List Point)
    (s : TrackState) (pos : GeoPosition) (now : ℚ) :
    (handlePosition d points s pos now).state.isMoving
        = (motionUpdate d s pos.latitude pos.longitude pos.accuracy now).1 ∧
    (handlePosition d points s pos now).state.lastMotionSample
        = (motionUpdate d s pos.latitude pos.longitude pos.accuracy now).2 := by
  cases hb : s.isTracking with
  | false => simp [handlePosition, hb]
  | true =>
    cases hp : (triggerScan d pos.latitude pos.longitude pos.accuracy
        (getEffectiveRadius pos.accuracy) points s.triggeredPointIds
        s.lastTriggerEvalPointId s.lastTriggerEvalEffectiveRadius
        s.lastTriggerEvalInsideRadius).played with
    | none => simp [handlePosition, hb, hp]
    | some p => simp [handlePosition, hb, hp]

/-- Claim C6: for every accepted motion sample (accuracy at most the
usable threshold, 20 m) evaluated once the 12 s reference window has
elapsed, a displacement from the reference strictly between the still
threshold (3 m) and the moving threshold (8 m) leaves `isMoving` and
the reference sample unchanged; a displacement of at least 8 m sets
`isMoving` and resets the reference; a displacement below 3 m clears
`isMoving` and resets the reference. -/
theorem handlePosition_motion_hysteresis (d : DistFn) (points : List Point)
    (s : TrackState) (pos : GeoPosition) (now : ℚ) (ref : MotionSample)
    (hacc : pos.accuracy ≤ POOR_ACCURACY_THRESHOLD_METERS)
    (href : s.lastMotionSample = some ref)
    (hwin : now - ref.time ≥ MOTION_WINDOW_MS) :
    ((MOTION_STILL_METERS < d ref.lat ref.lng pos.latitude pos.longitude ∧
        d ref.lat ref.lng pos.latitude pos.longitude < MOTION_DISTANCE_METERS) →
      (handlePosition d points s pos now).state.isMoving = s.isMoving ∧
      (handlePosition d points s pos now).state.lastMotionSample = s.lastMotionSample) ∧
    (d ref.lat ref.lng pos.latitude pos.longitude ≥ MOTION_DISTANCE_METERS →
      (handlePosition d points s pos now).state.isMoving = true ∧
      (handlePosition d points s pos now).state.lastMotionSample
          = some ⟨pos.latitude, pos.longitude, now⟩) ∧
    (d ref.lat ref.lng pos.latitude pos.longitude < MOTION_STILL_METERS →
      (handlePosition d points s pos now).state.isMoving = false ∧
      (handlePosition d points s pos now).state.lastMotionSample
          = some ⟨pos.latitude, pos.longitude, now⟩) := by
  obtain ⟨hm1, hm2⟩ := handlePosition_motionFields d points s pos now
  rw [hm1, hm2]
  unfold motionUpdate
  rw [if_pos hacc, href]
  dsimp only
  rw [if_pos hwin]
  refine ⟨?_, ?_, ?_⟩
  · rintro ⟨hlo, hhi⟩
    rw [if_neg (not_le.mpr hhi), if_neg (not_lt.mpr (le_of_lt hlo))]
    exact ⟨rfl, rfl⟩
  · intro hmov
    rw [if_pos hmov]
    exact ⟨rfl, rfl⟩
  · intro hstill
    have hnot : ¬(d ref.lat ref.lng pos.latitude pos.longitude ≥ MOTION_DISTANCE_METERS) := by
      refine not_le.mpr (lt_trans hstill ?_)
      norm_num [MOTION_STILL_METERS, MOTION_DISTANCE_METERS]
    rw [if_neg hnot, if_pos hstill]
    exact ⟨rfl, rfl⟩

/-- Witness for C6: a 5 m displacement (strictly between the 3 m and
8 m thresholds) measured from a reference taken at time 0, with a 10 m
accuracy sample at time 20000 ms, changes neither `isMoving` nor the
reference sample. -/
theorem handlePosition_motion_hysteresis_witness :
    samplePos10.accuracy ≤ POOR_ACCURACY_THRESHOLD_METERS ∧
    motionRefState.lastMotionSample = some ⟨0, 0, 0⟩ ∧
    (20000 : ℚ) - (⟨0, 0, 0⟩ : MotionSample).time ≥ MOTION_WINDOW_MS ∧
    ((handlePosition dFive [] motionRefState samplePos10 20000).state.isMoving
        = motionRefState.isMoving ∧
      (handlePosition dFive [] motionRefState samplePos10 20000).state.lastMotionSample
        = motionRefState.lastMotionSample) :=
  ⟨by decide, rfl, by norm_num [MOTION_WINDOW_MS],
    (handlePosition_motion_hysteresis dFive [] motionRefState samplePos10 20000 ⟨0, 0, 0⟩
        (by decide) rfl (by norm_num [MOTION_WINDOW_MS])).1
      ⟨by decide, by decide⟩⟩

/-- Counterexample to claim C7 as stated: stopping tracking in a
session that has already triggered point `p1` leaves `p1` in
`triggeredPointIds` and keeps the last-triggered record — the
stop-tracking operation does not clear them. -/
theorem stopTracking_keeps_triggered_counterexample :
    (stopTracking midSessionState).triggeredPointIds = ["p1"] ∧
    (stopTracking midSessionState).lastTriggeredPoint = some pt1 ∧
    ¬((stopTracking midSessionState).triggeredPointIds = [] ∧
      (stopTracking midSessionState).lastTriggeredPoint = none) := by
  decide

/-- Claim C7 as amended: `stopTracking` leaves `triggeredPointIds` and
the last-triggered record untouched (it only stops tracking, the motion
detector and the audio player); it is the next `startTracking` — always
runnable after a stop, since tracking is then off — that clears both,
so no triggered-point state is live once the next session starts. -/
theorem stopTracking_then_start_clears (s : TrackState) :
    (stopTracking s).triggeredPointIds = s.triggeredPointIds ∧
    (stopTracking s).lastTriggeredPoint = s.lastTriggeredPoint ∧
    (stopTracking s).isTracking = false ∧
    (startTracking true (stopTracking s)).triggeredPointIds = [] ∧
    (startTracking true (stopTracking s)).lastTriggeredPoint = none := by
  refine ⟨rfl, rfl, rfl, ?_, ?_⟩ <;> simp [startTracking, stopTracking]

/-- Counterexample to claim C8 as stated: on a state carrying both
`progress = 5` and `completedFiles = 1` of `totalFiles = 2`, the code
returns the explicit `progress` value 5, not the ratio-derived
`round(1/2 * 100) = 50` the claim requires — `completedFiles` and
`totalFiles` do not take precedence. -/
theorem getProgressPercent_counterexample :
    getProgressPercent (some progressPrecedenceState) = 5 ∧
    ((jsRound ((1 : ℚ) / (2 : ℚ) * 100) : ℤ) : ℚ) = 50 ∧
    getProgressPercent (some progressPrecedenceState)
      ≠ ((jsRound ((1 : ℚ) / (2 : ℚ) * 100) : ℤ) : ℚ) := by
  have h50 : ((jsRound ((1 : ℚ) / (2 : ℚ) * 100) : ℤ) : ℚ) = 50 := by
    norm_num [jsRound]
  refine ⟨rfl, h50, ?_⟩
  rw [h50]
  decide

/-- Claim C8 as amended: an explicit numeric `progress` field, when
present, takes precedence; only when it is absent do
`completedFiles`/`totalFiles` drive the derived percentage
`round(completed/total*100)` (the JavaScript truthiness guard makes a
zero in either field yield 0, which agrees with the rounded ratio);
with either of them absent the result is 0, and without a state the
result is 0. -/
theorem getProgressPercent_progress_precedence (s : DownloadState) (p : ℚ) (c t : ℕ) :
    (s.progress = some p → getProgressPercent (some s) = p) ∧
    (s.progress = none → s.completedFiles = some c → s.totalFiles = some t →
      getProgressPercent (some s) = ((jsRound ((c : ℚ) / (t : ℚ) * 100) : ℤ) : ℚ)) ∧
    (s.progress = none → (s.completedFiles = none ∨ s.totalFiles = none) →
      getProgressPercent (some s) = 0) ∧
    getProgressPercent none = 0 := by
  refine ⟨?_, ?_, ?_, rfl⟩
  · intro hp
    simp [getProgressPercent, hp]
  · intro hp hc ht
    simp only [getProgressPercent, hp, hc, ht]
    by_cases h0 : c ≠ 0 ∧ t ≠ 0
    · rw [if_pos h0]
    · rw [if_neg h0]
      rcases not_and_or.mp h0 with h1 | h1
      · have hc0 : c = 0 := not_not.mp h1
        subst hc0
        norm_num [jsRound]
      · have ht0 : t = 0 := not_not.mp h1
        subst ht0
        norm_num [jsRound]
  · intro hp habs
    rcases habs with h1 | h1
    · simp [getProgressPercent, hp, h1]
    · cases hcf : s.completedFiles with
      | none => simp [getProgressPercent, hp, h1, hcf]
      | some c' => simp [getProgressPercent, hp, h1, hcf]

/-! ## Lemmas about the download pipeline -/

theorem progressEvents_nil : progressEvents [] = [] := rfl

theorem progressEvents_cons_progress (e : ProgressEvent) (l : List SwEvent) :
    progressEvents (SwEvent.tourProgress e :: l) = e :: progressEvents l := rfl

theorem progressEvents_cons_downloaded (i : String) (r : CacheResult) (l : List SwEvent) :
    progressEvents (SwEvent.tourDownloaded i r :: l) = progressEvents l := rfl

theorem progressEvents_append (l₁ l₂ : List SwEvent) :
    progressEvents (l₁ ++ l₂) = progressEvents l₁ ++ progressEvents l₂ :=
  List.filterMap_append _ _ _

theorem progressEventsV2_nil : progressEventsV2 [] = [] := rfl

theorem progressEventsV2_cons_progress (e : ProgressEventV2) (l : List SwEventV2) :
    progressEventsV2 (SwEventV2.tourProgress e :: l) = e :: progressEventsV2 l := rfl

theorem progressEventsV2_cons_downloaded (i : String) (r : CacheResult) (l : List SwEventV2) :
    progressEventsV2 (SwEventV2.tourDownloaded i r :: l) = progressEventsV2 l := rfl

theorem progressEventsV2_append (l₁ l₂ : List SwEventV2) :
    progressEventsV2 (l₁ ++ l₂) = progressEventsV2 l₁ ++ progressEventsV2 l₂ :=
  List.filterMap_append _ _ _

theorem completedSeq_nil : completedSeq [] = [] := rfl

theorem completedSeq_cons_progress (e : ProgressEvent) (l : List SwEvent) :
    completedSeq (SwEvent.tourProgress e :: l) = e.completed :: completedSeq l := rfl

theorem completedSeq_cons_downloaded (i : String) (r : CacheResult) (l : List SwEvent) :
    completedSeq (SwEvent.tourDownloaded i r :: l) = completedSeq l := rfl

theorem completedSeq_append (l₁ l₂ : List SwEvent) :
    completedSeq (l₁ ++ l₂) = completedSeq l₁ ++ completedSeq l₂ := by
  simp [completedSeq, progressEvents_append]

theorem completedSeqV2_nil : completedSeqV2 [] = [] := rfl

theorem completedSeqV2_cons_progress (e : ProgressEventV2) (l : List SwEventV2) :
    completedSeqV2 (SwEventV2.tourProgress e :: l) = e.completed :: completedSeqV2 l := rfl

theorem completedSeqV2_cons_downloaded (i : String) (r : CacheResult) (l : List SwEventV2) :
    completedSeqV2 (SwEventV2.tourDownloaded i r :: l) = completedSeqV2 l := rfl

theorem completedSeqV2_append (l₁ l₂ : List SwEventV2) :
    completedSeqV2 (l₁ ++ l₂) = completedSeqV2 l₁ ++ completedSeqV2 l₂ := by
  simp [completedSeqV2, progressEventsV2_append]

/-- The loop's final counter counts the cached files of the list, and
its failed-URL list is exactly the files that were not cached, in
order. -/
theorem downloadLoop_count (env : SwEnv) (tourId : String) (total : ℕ) :
    ∀ (urls : List String) (completed index : ℕ),
      (downloadLoop env tourId total urls completed index).2.1
          = completed + (urls.filter (fileCached env)).length ∧
      (downloadLoop env tourId total urls completed index).2.2
          = urls.filter (fun u => !(fileCached env u)) := by
  intro urls
  induction urls with
  | nil => intro completed index; simp [downloadLoop]
  | cons url rest ih =>
    intro completed index
    by_cases h : fileCached env url = true
    · obtain ⟨h1, h2⟩ := ih (completed + 1) (index + 1)
      constructor
      · simp only [downloadLoop, if_pos h, h1, List.filter_cons, h, if_true,
          List.length_cons]
        omega
      · simp [downloadLoop, h, h2, List.filter_cons]
    · obtain ⟨h1, h2⟩ := ih completed (index + 1)
      constructor
      · simp only [downloadLoop, if_neg h, h1, List.filter_cons]
      · simp [downloadLoop, h, h2, List.filter_cons]

/-- The `completed` counters emitted by the loop form a non-decreasing
chain from the initial counter to the final one. -/
theorem downloadLoop_chain (env : SwEnv) (tourId : String) (total : ℕ) :
    ∀ (urls : List String) (completed index : ℕ),
      List.Chain' (· ≤ ·)
        (completed :: (completedSeq (downloadLoop env tourId total urls completed index).1
          ++ [(downloadLoop env tourId total urls completed index).2.1])) := by
  intro urls
  induction urls with
  | nil =>
    intro completed index
    simp [downloadLoop, completedSeq_nil]
  | cons url rest ih =>
    intro completed index
    by_cases h : fileCached env url = true
    · have hrec := ih (completed + 1) (index + 1)
      simp only [downloadLoop, if_pos h, completedSeq_cons_progress, List.cons_append]
      exact List.Chain'.cons (le_refl _) (List.Chain'.cons (Nat.le_succ _) hrec)
    · have hrec := ih completed (index + 1)
      simp only [downloadLoop, if_neg h, completedSeq_cons_progress, List.cons_append]
      exact List.Chain'.cons (le_refl _) (List.Chain'.cons (le_refl _) hrec)

/-- Every event emitted by the loop reports at most
`completed + remaining` for `completed`, and always the fixed `total`. -/
theorem downloadLoop_events_bound (env : SwEnv) (tourId : String) (total : ℕ) :
    ∀ (urls : List String) (completed index : ℕ),
      ∀ e ∈ progressEvents (downloadLoop env tourId total urls completed index).1,
        e.completed ≤ completed + urls.length ∧ e.total = total := by
  intro urls
  induction urls with
  | nil =>
    intro completed index e he
    simp [downloadLoop, progressEvents_nil] at he
  | cons url rest ih =>
    intro completed index e he
    by_cases h : fileCached env url = true
    · simp only [downloadLoop, if_pos h, progressEvents_cons_progress, List.mem_cons] at he
      rcases he with rfl | rfl | he
      · exact ⟨by simp, rfl⟩
      · exact ⟨by simp, rfl⟩
      · obtain ⟨h1, h2⟩ := ih (completed + 1) (index + 1) e he
        exact ⟨by simp at h1 ⊢; omega, h2⟩
    · simp only [downloadLoop, if_neg h, progressEvents_cons_progress, List.mem_cons] at he
      rcases he with rfl | rfl | he
      · exact ⟨by simp, rfl⟩
      · exact ⟨by simp, rfl⟩
      · obtain ⟨h1, h2⟩ := ih completed (index + 1) e he
        exact ⟨by simp at h1 ⊢; omega, h2⟩

/-- V2 loop: final counter and failed URLs, as for the part_007 loop. -/
theorem downloadLoopV2_count (env : SwEnv) (tourId : String) (total : ℕ) :
    ∀ (urls : List String) (completed : ℕ),
      (downloadLoopV2 env tourId total urls completed).2.1
          = completed + (urls.filter (cacheAddOk env)).length ∧
      (downloadLoopV2 env tourId total urls completed).2.2
          = urls.filter (fun u => !(cacheAddOk env u)) := by
  intro urls
  induction urls with
  | nil => intro completed; simp [downloadLoopV2]
  | cons url rest ih =>
    intro completed
    by_cases h : cacheAddOk env url = true
    · obtain ⟨h1, h2⟩ := ih (completed + 1)
      constructor
      · simp only [downloadLoopV2, if_pos h, h1, List.filter_cons, h, if_true,
          List.length_cons]
        omega
      · simp [downloadLoopV2, h, h2, List.filter_cons]
    · obtain ⟨h1, h2⟩ := ih completed
      constructor
      · simp only [downloadLoopV2, if_neg h, h1, List.filter_cons]
      · simp [downloadLoopV2, h, h2, List.filter_cons]

/-- V2 loop: the emitted `completed` counters form a non-decreasing
chain from the initial counter to the final one. -/
theorem downloadLoopV2_chain (env : SwEnv) (tourId : String) (total : ℕ) :
    ∀ (urls : List String) (completed : ℕ),
      List.Chain' (· ≤ ·)
        (completed :: (completedSeqV2 (downloadLoopV2 env tourId total urls completed).1
          ++ [(downloadLoopV2 env tourId total urls completed).2.1])) := by
  intro urls
  induction urls with
  | nil =>
    intro completed
    simp [downloadLoopV2, completedSeqV2_nil]
  | cons url rest ih =>
    intro completed
    by_cases h : cacheAddOk env url = true
    · have hrec := ih (completed + 1)
      simp only [downloadLoopV2, if_pos h, completedSeqV2_cons_progress, List.cons_append]
      exact List.Chain'.cons (Nat.le_succ _) hrec
    · have hrec := ih completed
      simp only [downloadLoopV2, if_neg h, completedSeqV2_cons_progress, List.cons_append]
      exact List.Chain'.cons (le_refl _) hrec

/-- V2 loop: every emitted event reports at most
`completed + remaining` for `completed`, and always the fixed `total`. -/
theorem downloadLoopV2_events_bound (env : SwEnv) (tourId : String) (total : ℕ) :
    ∀ (urls : List String) (completed : ℕ),
      ∀ e ∈ progressEventsV2 (downloadLoopV2 env tourId total urls completed).1,
        e.completed ≤ completed + urls.length ∧ e.total = total := by
  intro urls
  induction urls with
  | nil =>
    intro completed e he
    simp [downloadLoopV2, progressEventsV2_nil] at he
  | cons url rest ih =>
    intro completed e he
    by_cases h : cacheAddOk env url = true
    · simp only [downloadLoopV2, if_pos h, progressEventsV2_cons_progress, List.mem_cons] at he
      rcases he with rfl | he
      · exact ⟨by simp, rfl⟩
      · obtain ⟨h1, h2⟩ := ih (completed + 1) e he
        exact ⟨by simp at h1 ⊢; omega, h2⟩
    · simp only [downloadLoopV2, if_neg h, progressEventsV2_cons_progress, List.mem_cons] at he
      rcases he with rfl | he
      · exact ⟨by simp, rfl⟩
      · obtain ⟨h1, h2⟩ := ih completed e he
        exact ⟨by simp at h1 ⊢; omega, h2⟩

/-- Prepending to a non-decreasing chain that ends in `b ≤ c` keeps it
a chain after appending `c`. -/
theorem chain_le_snoc (a b c : ℕ) (l : List ℕ)
    (h : List.Chain' (fun x y => x ≤ y) (a :: (l ++ [b]))) (hbc : b ≤ c) :
    List.Chain' (fun x y => x ≤ y) (a :: (l ++ [b, c])) := by
  have heq : a :: (l ++ [b, c]) = (a :: (l ++ [b])) ++ [c] := by simp
  rw [heq]
  refine List.chain'_append.mpr ⟨h, List.chain'_singleton _, ?_⟩
  intro x hx y hy
  have hx' : b = x := by
    have hlast : (a :: (l ++ [b])).getLast? = some b := by
      rw [show a :: (l ++ [b]) = (a :: l) ++ [b] by simp]
      exact List.getLast?_concat _
    rw [hlast] at hx
    simpa using hx
  have hy' : c = y := by simpa using hy
  rw [← hx', ← hy']
  exact hbc

theorem getLast?_append_two {α : Type} (l : List α) (a b : α) :
    (l ++ [a, b]).getLast? = some b := by
  rw [show l ++ [a, b] = (l ++ [a]) ++ [b] by simp]
  exact List.getLast?_concat _

theorem getLast?_append_three {α : Type} (l : List α) (a b c : α) :
    (l ++ [a, b, c]).getLast? = some c := by
  rw [show l ++ [a, b, c] = (l ++ [a, b]) ++ [c] by simp]
  exact List.getLast?_concat _

/-- The event list of one part_007 run, as prefix plus the fixed
`saving`, `done` and `tour-downloaded` tail. -/
theorem cacheTourAssets_events_shape (env : SwEnv) (payload : TourPayload) :
    (cacheTourAssets env payload).1
      = (SwEvent.tourProgress ⟨payload.id, .preparing, 0,
            (buildOrderedUrls env payload.files).length, none, none, none⟩ ::
          (kickoffEvents payload.id (buildOrderedUrls env payload.files).length
              (buildOrderedUrls env payload.files) ++
            (downloadLoop env payload.id (buildOrderedUrls env payload.files).length
                (buildOrderedUrls env payload.files) 0 0).1)) ++
        [SwEvent.tourProgress ⟨payload.id, .saving,
            (downloadLoop env payload.id (buildOrderedUrls env payload.files).length
                (buildOrderedUrls env payload.files) 0 0).2.1,
            (buildOrderedUrls env payload.files).length, none, none, none⟩,
         SwEvent.tourProgress ⟨payload.id, .done, (buildOrderedUrls env payload.files).length,
            (buildOrderedUrls env payload.files).length, none, none, none⟩,
         SwEvent.tourDownloaded payload.id (cacheTourAssets env payload).2] := by
  simp [cacheTourAssets]

/-- The event list of one src/src/service-worker.ts run, as prefix plus
the fixed `saving`, `done` and `tour-downloaded` tail. -/
theorem cacheTourAssetsV2_events_shape (env : SwEnv) (payload : TourPayload) :
    (cacheTourAssetsV2 env payload).1
      = (SwEventV2.tourProgress ⟨payload.id, .preparing, 0,
            (buildOrderedUrls env payload.files).length, none, none⟩ ::
          (downloadLoopV2 env payload.id (buildOrderedUrls env payload.files).length
              (buildOrderedUrls env payload.files) 0).1) ++
        [SwEventV2.tourProgress ⟨payload.id, .saving,
            (downloadLoopV2 env payload.id (buildOrderedUrls env payload.files).length
                (buildOrderedUrls env payload.files) 0).2.1,
            (buildOrderedUrls env payload.files).length, none, none⟩,
         SwEventV2.tourProgress ⟨payload.id, .done, (buildOrderedUrls env payload.files).length,
            (buildOrderedUrls env payload.files).length, none, none⟩,
         SwEventV2.tourDownloaded payload.id (cacheTourAssetsV2 env payload).2] := by
  simp [cacheTourAssetsV2]

/-! ## Theorems for claims C3, C9, C4 -/

/-- Claim C3: within one `downloadTour` invocation, in the sequence of
`tour-progress` events emitted for that tour, the `completed` field
never decreases from one event to the next and never exceeds the
`total` field — in the part_007 pipeline and in the
src/src/service-worker.ts revision alike. -/
theorem download_progress_monotone (env : SwEnv) (payload : TourPayload) :
    List.Chain' (· ≤ ·) (completedSeq (cacheTourAssets env payload).1) ∧
    (∀ e ∈ progressEvents (cacheTourAssets env payload).1, e.completed ≤ e.total) ∧
    List.Chain' (· ≤ ·) (completedSeqV2 (cacheTourAssetsV2 env payload).1) ∧
    (∀ e ∈ progressEventsV2 (cacheTourAssetsV2 env payload).1, e.completed ≤ e.total) := by
  refine ⟨?_, ?_, ?_, ?_⟩
  · rcases hu : buildOrderedUrls env payload.files with _ | ⟨u, us⟩
    · simp [cacheTourAssets, hu, kickoffEvents, downloadLoop, completedSeq_cons_progress,
        completedSeq_nil, completedSeq_append, completedSeq_cons_downloaded]
    · have hchain := downloadLoop_chain env payload.id (u :: us).length (u :: us) 0 0
      have hcount := (downloadLoop_count env payload.id (u :: us).length (u :: us) 0 0).1
      have hfin : (downloadLoop env payload.id (u :: us).length (u :: us) 0 0).2.1
          ≤ (u :: us).length := by
        rw [hcount]
        have := List.length_filter_le (fileCached env) (u :: us)
        omega
      simp only [cacheTourAssets, hu, kickoffEvents, completedSeq_cons_progress,
        completedSeq_append, completedSeq_nil, completedSeq_cons_downloaded,
        List.cons_append, List.nil_append, List.append_nil]
      exact List.Chain'.cons (le_refl 0) (chain_le_snoc 0 _ _ _ hchain hfin)
  · intro e he
    rcases hu : buildOrderedUrls env payload.files with _ | ⟨u, us⟩
    · simp [cacheTourAssets, hu, kickoffEvents, downloadLoop, progressEvents_cons_progress,
        progressEvents_nil, progressEvents_append, progressEvents_cons_downloaded,
        List.mem_cons] at he
      rcases he with rfl | rfl | rfl <;> simp
    · have hcount := (downloadLoop_count env payload.id (u :: us).length (u :: us) 0 0).1
      simp only [cacheTourAssets, hu, kickoffEvents, progressEvents_cons_progress,
        progressEvents_append, progressEvents_nil, progressEvents_cons_downloaded,
        List.cons_append, List.nil_append, List.mem_cons, List.mem_append] at he
      rcases he with rfl | rfl | he | rfl | rfl | he0
      · simp
      · simp
      · obtain ⟨h1, h2⟩ := downloadLoop_events_bound env payload.id (u :: us).length
          (u :: us) 0 0 e he
        rw [h2]
        simpa using h1
      · dsimp only
        rw [hcount]
        have := List.length_filter_le (fileCached env) (u :: us)
        omega
      · simp
      · simp at he0
  · have hchain := downloadLoopV2_chain env payload.id
      (buildOrderedUrls env payload.files).length (buildOrderedUrls env payload.files) 0
    have hcount := (downloadLoopV2_count env payload.id
      (buildOrderedUrls env payload.files).length (buildOrderedUrls env payload.files) 0).1
    have hfin : (downloadLoopV2 env payload.id (buildOrderedUrls env payload.files).length
        (buildOrderedUrls env payload.files) 0).2.1
        ≤ (buildOrderedUrls env payload.files).length := by
      rw [hcount]
      have := List.length_filter_le (cacheAddOk env) (buildOrderedUrls env payload.files)
      omega
    simp only [cacheTourAssetsV2, completedSeqV2_cons_progress, completedSeqV2_append,
      completedSeqV2_nil, completedSeqV2_cons_downloaded, List.cons_append, List.nil_append]
    exact chain_le_snoc 0 _ _ _ hchain hfin
  · intro e he
    have hcount := (downloadLoopV2_count env payload.id
      (buildOrderedUrls env payload.files).length (buildOrderedUrls env payload.files) 0).1
    simp only [cacheTourAssetsV2, progressEventsV2_cons_progress, progressEventsV2_append,
      progressEventsV2_nil, progressEventsV2_cons_downloaded, List.cons_append,
      List.nil_append, List.mem_cons, List.mem_append] at he
    rcases he with rfl | he | rfl | rfl | he0
    · simp
    · obtain ⟨h1, h2⟩ := downloadLoopV2_events_bound env payload.id
        (buildOrderedUrls env payload.files).length (buildOrderedUrls env payload.files) 0 e he
      rw [h2]
      simpa using h1
    · dsimp only
      rw [hcount]
      have := List.length_filter_le (cacheAddOk env) (buildOrderedUrls env payload.files)
      omega
    · simp
    · simp at he0

/-- Claim C9: every `downloadTour` invocation ends its progress stream
with a stage-`done` `tour-progress` event whose `completed` field
equals `total` — even when files failed to cache — and the per-file
failures appear only in the subsequent terminal `tour-downloaded`
event, which closes the emitted sequence; this holds for the part_007
pipeline and for the src/src/service-worker.ts revision. -/
theorem download_done_event_final (env : SwEnv) (payload : TourPayload) :
    (progressEvents (cacheTourAssets env payload).1).getLast?
        = some ⟨payload.id, Stage.done, (buildOrderedUrls env payload.files).length,
            (buildOrderedUrls env payload.files).length, none, none, none⟩ ∧
    (cacheTourAssets env payload).1.getLast?
        = some (SwEvent.tourDownloaded payload.id (cacheTourAssets env payload).2) ∧
    (progressEventsV2 (cacheTourAssetsV2 env payload).1).getLast?
        = some ⟨payload.id, Stage.done, (buildOrderedUrls env payload.files).length,
            (buildOrderedUrls env payload.files).length, none, none⟩ ∧
    (cacheTourAssetsV2 env payload).1.getLast?
        = some (SwEventV2.tourDownloaded payload.id (cacheTourAssetsV2 env payload).2) := by
  refine ⟨?_, ?_, ?_, ?_⟩
  · rw [cacheTourAssets_events_shape env payload, progressEvents_append]
    simp only [progressEvents_cons_progress, progressEvents_cons_downloaded,
      progressEvents_nil]
    exact getLast?_append_two _ _ _
  · rw [cacheTourAssets_events_shape env payload]
    exact getLast?_append_three _ _ _ _
  · rw [cacheTourAssetsV2_events_shape env payload, progressEventsV2_append]
    simp only [progressEventsV2_cons_progress, progressEventsV2_cons_downloaded,
      progressEventsV2_nil]
    exact getLast?_append_two _ _ _
  · rw [cacheTourAssetsV2_events_shape env payload]
    exact getLast?_append_three _ _ _ _

/-- Claim C4: when a file fails all of its bounded retry attempts (two
attempts, each under a timeout), part_007's `cacheTourAssets` records
that URL as failed and continues with the next file instead of
aborting: the result's `okCount` counts exactly the cached files,
`failedUrls` lists exactly the files that failed (plus the metadata
JSON key if its put failed), `failCount` is their number, the job still
emits the stage-`done` event and the terminal `tour-downloaded` event
carrying the result; concretely, five files with file #3 failing both
attempts yield `okCount = 4`, `failCount = 1`, `failedUrls = [f3]`. -/
theorem download_partial_failure (env : SwEnv) (payload : TourPayload) :
    (cacheTourAssets env payload).2.okCount
        = ((buildOrderedUrls env payload.files).filter (fileCached env)).length ∧
    (cacheTourAssets env payload).2.failedUrls
        = (buildOrderedUrls env payload.files).filter (fun u => !(fileCached env u))
            ++ jsonFailures env payload ∧
    (cacheTourAssets env payload).2.failCount
        = (cacheTourAssets env payload).2.failedUrls.length ∧
    SwEvent.tourProgress ⟨payload.id, Stage.done, (buildOrderedUrls env payload.files).length,
        (buildOrderedUrls env payload.files).length, none, none, none⟩
      ∈ (cacheTourAssets env payload).1 ∧
    SwEvent.tourDownloaded payload.id (cacheTourAssets env payload).2
      ∈ (cacheTourAssets env payload).1 ∧
    (cacheTourAssets env5 payload5).2 = ⟨4, 1, ["f3"]⟩ := by
  have hcount := downloadLoop_count env payload.id (buildOrderedUrls env payload.files).length
    (buildOrderedUrls env payload.files) 0 0
  refine ⟨?_, ?_, ?_, ?_, ?_, ?_⟩
  · simp only [cacheTourAssets]
    rw [hcount.1]
    omega
  · simp only [cacheTourAssets]
    rw [hcount.2]
  · rfl
  · rw [cacheTourAssets_events_shape env payload]
    simp
  · rw [cacheTourAssets_events_shape env payload]
    simp
  · decide

/-- Witness for C3: the five-file run with file #3 failing still emits
a monotone, total-bounded progress stream. -/
theorem download_progress_monotone_witness :
    List.Chain' (· ≤ ·) (completedSeq (cacheTourAssets env5 payload5).1) ∧
    (∀ e ∈ progressEvents (cacheTourAssets env5 payload5).1, e.completed ≤ e.total) :=
  ⟨(download_progress_monotone env5 payload5).1,
    (download_progress_monotone env5 payload5).2.1⟩

/-- Witness for the amended C8: with no explicit `progress` and 3 of 4
files completed, the derived percentage is the rounded ratio. -/
theorem getProgressPercent_progress_precedence_witness :
    threeOfFourState.progress = none ∧
    threeOfFourState.completedFiles = some 3 ∧
    threeOfFourState.totalFiles = some 4 ∧
    getProgressPercent (some threeOfFourState)
      = ((jsRound (((3 : ℕ) : ℚ) / ((4 : ℕ) : ℚ) * 100) : ℤ) : ℚ) :=
  ⟨rfl, rfl, rfl,
    (getProgressPercent_progress_precedence threeOfFourState 0 3 4).2.1 rfl rfl rfl⟩

end Audioguia
